import Mathlib

/-!
Verification development for the boostgo/storage data-access layer.

The Go sources are shallowly embedded: an execution context
(`context.Context`) is a value chain looked up youngest-first, driver
handles (`*sqlx.Tx`, `redis.Pipeliner`, `*sqlx.DB`, `redis.UniversalClient`)
are identified by natural numbers, and fallible operations return
`Except Err` / `Option Err`.  Operations whose interesting content is which
physical target they touch (raw connection versus ambient transaction) or
which driver calls they issue additionally return an explicit trace.
-/

/-- Values storable in an execution context.  `sqlTxVal` models a
`*sqlx.Tx` handle, `redisTxVal` a `redis.Pipeliner`, and `otherVal` any
unrelated value another caller may have attached. -/
inductive CtxValue where
  | sqlTxVal (id : Nat)
  | redisTxVal (id : Nat)
  | otherVal (tag : Nat)
  deriving DecidableEq, Repr

/-- A Go `context.Context` as its chain of `WithValue` derivations, the
youngest derivation first.  `Value` walks the chain parent-ward, so the
first key match wins. -/
structure GoContext where
  chain : List (String × CtxValue)
  deriving DecidableEq, Repr

/-- The root context (`context.Background()`): an empty value chain. -/
def background : GoContext := ⟨[]⟩

/-- Model of `ctx.Value(key)`: first match in the derivation chain. -/
def GoContext.valueOf (ctx : GoContext) (key : String) : Option CtxValue :=
  match ctx.chain.find? (fun p => p.1 == key) with
  | some p => some p.2
  | none => none

/-- Model of `context.WithValue(ctx, key, v)`: a derived context whose
chain extends the parent chain by one entry.  The parent is untouched. -/
def withValue (ctx : GoContext) (key : String) (v : CtxValue) : GoContext :=
  ⟨(key, v) :: ctx.chain⟩

/-- Error values of the embedded layer.  Constructors mirror the
distinguished errors the sources build with `errorx.New`; `childErr`
stands for an arbitrary error produced by an abstract child transactor or
shard operation, `driverErr` for an error surfaced by the underlying
driver. -/
inductive Err where
  | connNotSelected
  | sqlKeyEmpty
  | sqlConnStringEmpty (key : String)
  | sqlDuplicateKey (key : String)
  | redisClientKeyEmpty
  | redisAddressEmpty (key : String)
  | redisPortZero (key : String)
  | redisDuplicateKey (key : String)
  | redisKeyEmpty
  | connectFailed (key : String)
  | childErr (n : Nat)
  | driverErr (n : Nat)
  deriving DecidableEq, Repr

/-- First `some` in a list of optional errors; `none` when all succeed.
This is the deterministic embedding of `errgroup.Group.Wait`, which
stores the first error reported by any launched goroutine (the Go
runtime picks one nondeterministically; this embedding fixes launch
order, which is immaterial to every property proved below since they
only use membership and the all-`none` criterion). -/
def firstSome : List (Option Err) → Option Err
  | [] => none
  | some e :: _ => some e
  | none :: rest => firstSome rest

namespace sql

/-- Context key of the SQL ambient transaction (`const transactionKey =
"storage_sql_tx"` in package sql). -/
def transactionKey : String := "storage_sql_tx"

/-- Model of sql.SetTx: derive a context carrying the transaction handle
under the SQL resource-kind key. -/
def SetTx (ctx : GoContext) (tx : Nat) : GoContext :=
  withValue ctx transactionKey (CtxValue.sqlTxVal tx)

/-- Model of sql.GetTx: `ctx.Value(transactionKey)` followed by the
`.(*sqlx.Tx)` type assertion.  `some tx` corresponds to the Go return
`(tx, true)`; `none` covers both the absent-value case and a
failed type assertion. -/
def GetTx (ctx : GoContext) : Option Nat :=
  match ctx.valueOf transactionKey with
  | some (CtxValue.sqlTxVal tx) => some tx
  | _ => none

end sql

namespace redis

/-- Context key of the key-value ambient pipeline (`const transactionKey =
"storage_redis_tx"` in package redis). -/
def transactionKey : String := "storage_redis_tx"

/-- Model of redis.SetTx: derive a context carrying the pipeliner under
the key-value resource-kind key. -/
def SetTx (ctx : GoContext) (tx : Nat) : GoContext :=
  withValue ctx transactionKey (CtxValue.redisTxVal tx)

/-- Model of redis.GetTx: `ctx.Value(transactionKey)` followed by the
`.(redis.Pipeliner)` type assertion. -/
def GetTx (ctx : GoContext) : Option Nat :=
  match ctx.valueOf transactionKey with
  | some (CtxValue.redisTxVal tx) => some tx
  | _ => none

end redis

/-- Driver-level calls issued by the single-kind transactors against a
transaction handle.  `sqlCommit`/`sqlRollback` are `tx.Commit()` and
`tx.Rollback()` on a `*sqlx.Tx`; `redisExec`/`redisDiscard` are
`tx.Exec(ctx)` and `tx.Discard()` on a `redis.Pipeliner`. -/
inductive DrvEvent where
  | sqlCommit (tx : Nat)
  | sqlRollback (tx : Nat)
  | redisExec (p : Nat)
  | redisDiscard (p : Nat)
  deriving DecidableEq, Repr

namespace sql

/-- Outcome oracle of the underlying SQL driver: the error, if any, that
committing or rolling back a given transaction handle would return. -/
structure Driver where
  commitErr : Nat → Option Err
  rollbackErr : Nat → Option Err

/-- Model of sqlTransactor.CommitCtx: look up the ambient transaction;
absent means a successful no-op with no driver call, present means one
`tx.Commit()` whose driver result is surfaced. -/
def CommitCtx (drv : Driver) (ctx : GoContext) : Option Err × List DrvEvent :=
  match GetTx ctx with
  | none => (none, [])
  | some tx => (drv.commitErr tx, [DrvEvent.sqlCommit tx])

/-- Model of sqlTransactor.RollbackCtx: absent ambient transaction is a
successful no-op, otherwise one `tx.Rollback()`. -/
def RollbackCtx (drv : Driver) (ctx : GoContext) : Option Err × List DrvEvent :=
  match GetTx ctx with
  | none => (none, [])
  | some tx => (drv.rollbackErr tx, [DrvEvent.sqlRollback tx])

/-- Model of sql.ShardConnect: an identifying key plus the owned
`*sqlx.DB` connection, identified by a number. -/
structure ShardConnect where
  key : String
  conn : Nat
  deriving DecidableEq, Repr

/-- Model of sql.Connections: the ordered shard connections plus the
pluggable selector (a Go function returning a possibly-nil handle). -/
structure Connections where
  connections : List ShardConnect
  selector : GoContext → List ShardConnect → Option ShardConnect

/-- Model of Connections.Get: invoke the selector; a nil result is the
distinguished `storage.ErrConnNotSelected`, otherwise the chosen handle
is returned unchanged. -/
def Connections.Get (c : Connections) (ctx : GoContext) : Except Err ShardConnect :=
  match c.selector ctx c.connections with
  | none => Except.error Err.connNotSelected
  | some conn => Except.ok conn

/-- Target a delegating SQL operation executes against: the ambient
transaction handle, or the raw connection of the selected shard. -/
inductive ExecTarget where
  | txTarget (tx : Nat)
  | rawTarget (conn : Nat)
  deriving DecidableEq, Repr

/-- Model of clientShard.ExecContext (and the identically structured
QueryContext, SelectContext, GetContext, ...): resolve a shard via the
selector, then check the ambient transaction store; run against the
stored transaction when present, otherwise against the raw connection.
The embedding returns the execution target; logging and the `errorx`
error decoration are effect-free with respect to routing and omitted. -/
def ExecContext (c : Connections) (ctx : GoContext) : Except Err ExecTarget :=
  match c.Get ctx with
  | Except.error e => Except.error e
  | Except.ok raw =>
    match GetTx ctx with
    | some tx => Except.ok (ExecTarget.txTarget tx)
    | none => Except.ok (ExecTarget.rawTarget raw.conn)

end sql

namespace redis

/-- Outcome oracle of the key-value driver: the error, if any, that
`Exec` on a given pipeline would return (`Discard` cannot fail). -/
structure Driver where
  execErr : Nat → Option Err

/-- Model of redisTransactor.CommitCtx: look up the ambient pipeline;
absent means a successful no-op with no driver call, present means one
`tx.Exec(ctx)` whose driver result is surfaced. -/
def CommitCtx (drv : Driver) (ctx : GoContext) : Option Err × List DrvEvent :=
  match GetTx ctx with
  | none => (none, [])
  | some p => (drv.execErr p, [DrvEvent.redisExec p])

/-- Model of redisTransactor.RollbackCtx: absent ambient pipeline is a
successful no-op, otherwise one `tx.Discard()`, which always succeeds. -/
def RollbackCtx (ctx : GoContext) : Option Err × List DrvEvent :=
  match GetTx ctx with
  | none => (none, [])
  | some p => (none, [DrvEvent.redisDiscard p])

/-- Model of redis.ShardClient: key, routing conditions, and the owned
`redis.UniversalClient`, identified by a number. -/
structure ShardClient where
  key : String
  conditions : List String
  client : Nat
  deriving DecidableEq, Repr

/-- Model of redis.Clients: the ordered shard clients plus the pluggable
selector. -/
structure Clients where
  clients : List ShardClient
  selector : GoContext → List ShardClient → Option ShardClient

/-- Model of Clients.Get: invoke the selector; a nil result is the
distinguished `storage.ErrConnNotSelected`, otherwise the chosen client
is returned unchanged. -/
def Clients.Get (c : Clients) (ctx : GoContext) : Except Err ShardClient :=
  match c.selector ctx c.clients with
  | none => Except.error Err.connNotSelected
  | some conn => Except.ok conn

/-- Target a key-value operation issues its command against: the ambient
pipeline, or the raw client of the selected shard. -/
inductive ExecTarget where
  | txTarget (p : Nat)
  | rawTarget (client : Nat)
  deriving DecidableEq, Repr

/-- Model of shardClient.Get from redis/client_shard.go: validate the
key, resolve a shard via the selector, then issue GET against the raw
client of the selected shard.  This version consults the ambient
transaction store nowhere: the stored pipeline is ignored.  The
`validate(ctx, key)` guard, defined outside the packaged sources, is
modelled as the key-emptiness check its siblings (`validateKey`,
`ErrKeyEmpty`) perform; the redis.Nil to key-not-found normalization
happens after the command runs and does not affect the target. -/
def shardGet (c : Clients) (ctx : GoContext) (key : String) :
    Except Err ExecTarget :=
  if key = "" then Except.error Err.redisKeyEmpty
  else
    match c.Get ctx with
    | Except.error e => Except.error e
    | Except.ok raw => Except.ok (ExecTarget.rawTarget raw.client)

/-- Model of shardClient.Get from the other key-value shard client in
the repository (src/unnamed/part_001): validate the key, resolve a
shard, then check the ambient transaction store; issue GET on the
stored pipeline when present, otherwise on the raw client. -/
def shardGetTxAware (c : Clients) (ctx : GoContext) (key : String) :
    Except Err ExecTarget :=
  if key = "" then Except.error Err.redisKeyEmpty
  else
    match c.Get ctx with
    | Except.error e => Except.error e
    | Except.ok raw =>
      match GetTx ctx with
      | some p => Except.ok (ExecTarget.txTarget p)
      | none => Except.ok (ExecTarget.rawTarget raw.client)

end redis

namespace sql

/-- Model of the package-level EachShard over the shard client's
connections: apply `fn` to a single client wrapping each shard's raw
connection, sequentially in iteration order, returning the first error
and stopping there.  The pair's second component is the trace of raw
connections `fn` was invoked on, in order. -/
def EachShard (shards : List ShardConnect) (fn : Nat → Option Err) :
    Option Err × List Nat :=
  match shards with
  | [] => (none, [])
  | s :: rest =>
    match fn s.conn with
    | some e => (some e, [s.conn])
    | none =>
      let r := EachShard rest fn
      (r.1, s.conn :: r.2)

/-- Model of the package-level EachShardAsync: launch `fn` on every
shard via an errgroup (optionally capped by SetLimit, a scheduling
detail with no effect on which shards run or on the aggregate result)
and wait for all; the aggregate is the error errgroup.Wait retains,
embedded deterministically as the first failing shard in construction
order.  Every shard is invoked regardless of other failures. -/
def EachShardAsync (shards : List ShardConnect) (fn : Nat → Option Err) :
    Option Err × List Nat :=
  (firstSome (shards.map (fun s => fn s.conn)), shards.map (fun s => s.conn))

/-- Model of sql.ShardConnectString. -/
structure ShardConnectString where
  Key : String
  ConnectionString : String
  deriving DecidableEq, Repr

/-- Validation loop of sql.ConnectShards: reject an empty key, an empty
connection string, or a key already seen, threading the set of seen
keys (the `keys` map in the source, modelled as a list). -/
def validateShardStrings : List ShardConnectString → List String → Option Err
  | [], _ => none
  | cs :: rest, seen =>
    if cs.Key = "" then some Err.sqlKeyEmpty
    else if cs.ConnectionString = "" then some (Err.sqlConnStringEmpty cs.Key)
    else if cs.Key ∈ seen then some (Err.sqlDuplicateKey cs.Key)
    else validateShardStrings rest (cs.Key :: seen)

/-- Connection loop of sql.ConnectShards: attempt to connect every
entry in order, stopping at the first failure.  The second component
traces the keys for which a connection attempt was made. -/
def connectLoop (connect : String → Except Err Nat) :
    List ShardConnectString → Except Err (List ShardConnect) × List String
  | [] => (Except.ok [], [])
  | cs :: rest =>
    match connect cs.ConnectionString with
    | Except.error e => (Except.error e, [cs.Key])
    | Except.ok conn =>
      let r := connectLoop connect rest
      match r.1 with
      | Except.error e => (Except.error e, cs.Key :: r.2)
      | Except.ok conns =>
        (Except.ok ({ key := cs.Key, conn := conn } :: conns), cs.Key :: r.2)

/-- Model of sql.ConnectShards: validate every entry first; only when
validation of the whole list passes does the connection loop start.
`connect` is the external Connect collaborator, an oracle from
connection string to connection handle or failure. -/
def ConnectShards (css : List ShardConnectString)
    (connect : String → Except Err Nat) :
    Except Err (List ShardConnect) × List String :=
  match validateShardStrings css [] with
  | some e => (Except.error e, [])
  | none => connectLoop connect css

end sql

namespace redis

/-- Model of redis.ShardConnectConfig.  The port is an integer, as in
the source, where only the exact value zero is rejected. -/
structure ShardConnectConfig where
  Key : String
  Address : String
  Port : Int
  DB : Int
  Password : String
  Conditions : List String
  deriving DecidableEq, Repr

/-- Validation loop of redis.ConnectShards: reject an empty key, an
empty address, a zero port, or a key already seen. -/
def validateConfigs : List ShardConnectConfig → List String → Option Err
  | [], _ => none
  | cs :: rest, seen =>
    if cs.Key = "" then some Err.redisClientKeyEmpty
    else if cs.Address = "" then some (Err.redisAddressEmpty cs.Key)
    else if cs.Port = 0 then some (Err.redisPortZero cs.Key)
    else if cs.Key ∈ seen then some (Err.redisDuplicateKey cs.Key)
    else validateConfigs rest (cs.Key :: seen)

/-- Connection loop of redis.ConnectShards, tracing attempted keys. -/
def connectLoop (connect : String → Int → Except Err Nat) :
    List ShardConnectConfig → Except Err (List ShardClient) × List String
  | [] => (Except.ok [], [])
  | cs :: rest =>
    match connect cs.Address cs.Port with
    | Except.error e => (Except.error e, [cs.Key])
    | Except.ok client =>
      let r := connectLoop connect rest
      match r.1 with
      | Except.error e => (Except.error e, cs.Key :: r.2)
      | Except.ok clients =>
        (Except.ok (ShardClient.mk cs.Key cs.Conditions client :: clients),
         cs.Key :: r.2)

/-- Model of redis.ConnectShards: validate every entry before the first
connection attempt, then connect each shard in order. -/
def ConnectShards (ccs : List ShardConnectConfig)
    (connect : String → Int → Except Err Nat) :
    Except Err (List ShardClient) × List String :=
  match validateConfigs ccs [] with
  | some e => (Except.error e, [])
  | none => connectLoop connect ccs

end redis

/-- Calls the composite storage.transactor makes on its children,
tagged with the child's position in construction order. -/
inductive TxEvent where
  | beginOp (i : Nat)
  | beginCtxOp (i : Nat)
  | commitOp (i : Nat)
  | rollbackOp (i : Nat)
  deriving DecidableEq, Repr

namespace storage

/-- Abstract single-kind child of the composite transactor: one
implementation of the storage.Transactor interface, given by its
observable behaviour on each operation.  Transaction handles are
numbers; Begin either yields a handle or fails. -/
structure MTransactor where
  key : String
  isTx : GoContext → Bool
  beginTx : GoContext → Except Err Nat
  beginCtx : GoContext → Except Err GoContext
  commitCtx : GoContext → Option Err
  rollbackCtx : GoContext → Option Err

/-- Loop body of the composite transactor.Begin: begin each child in
construction order, collecting handles; on the first failure return
that error immediately.  Children are numbered from `i`; the trace
records each child Begin invocation.  The source never invokes any
rollback (or any other child operation) here, so only `beginOp` events
can occur. -/
def BeginAux (ctx : GoContext) :
    List MTransactor → Nat → Except Err (List Nat) × List TxEvent
  | [], _ => (Except.ok [], [])
  | tr :: rest, i =>
    match tr.beginTx ctx with
    | Except.error e => (Except.error e, [TxEvent.beginOp i])
    | Except.ok tx =>
      match BeginAux ctx rest (i + 1) with
      | (Except.error e, evs) => (Except.error e, TxEvent.beginOp i :: evs)
      | (Except.ok txs, evs) => (Except.ok (tx :: txs), TxEvent.beginOp i :: evs)

/-- Model of the composite transactor.Begin. -/
def Begin (children : List MTransactor) (ctx : GoContext) :
    Except Err (List Nat) × List TxEvent :=
  BeginAux ctx children 0

/-- Loop body of the composite transactor.BeginCtx: begin each child in
construction order, threading the derived context from one child to the
next; on the first failure return that error immediately. -/
def BeginCtxAux (ctx : GoContext) :
    List MTransactor → Nat → Except Err GoContext × List TxEvent
  | [], _ => (Except.ok ctx, [])
  | tr :: rest, i =>
    match tr.beginCtx ctx with
    | Except.error e => (Except.error e, [TxEvent.beginCtxOp i])
    | Except.ok ctx2 =>
      match BeginCtxAux ctx2 rest (i + 1) with
      | (r, evs) => (r, TxEvent.beginCtxOp i :: evs)

/-- Model of the composite transactor.BeginCtx. -/
def BeginCtx (children : List MTransactor) (ctx : GoContext) :
    Except Err GoContext × List TxEvent :=
  BeginCtxAux ctx children 0

/-- Results of invoking a per-child operation on every child, with the
child's position.  The errgroup in CommitCtx/RollbackCtx launches one
goroutine per child unconditionally, so every child is invoked. -/
def childResults (op : MTransactor → GoContext → Option Err) (ctx : GoContext) :
    List MTransactor → Nat → List (Nat × Option Err)
  | [], _ => []
  | tr :: rest, i => (i, op tr ctx) :: childResults op ctx rest (i + 1)

/-- Model of the composite transactor.CommitCtx: commit every child via
an errgroup and wait for all; the aggregate error is the one
errgroup.Wait retains (first failing child in the deterministic
embedding), `none` when every child succeeded. -/
def CommitCtx (children : List MTransactor) (ctx : GoContext) :
    Option Err × List TxEvent :=
  let results := childResults (fun tr => tr.commitCtx) ctx children 0
  (firstSome (results.map (fun r => r.2)),
   results.map (fun r => TxEvent.commitOp r.1))

/-- Model of the composite transactor.RollbackCtx: roll back every
child via an errgroup and wait for all. -/
def RollbackCtx (children : List MTransactor) (ctx : GoContext) :
    Option Err × List TxEvent :=
  let results := childResults (fun tr => tr.rollbackCtx) ctx children 0
  (firstSome (results.map (fun r => r.2)),
   results.map (fun r => TxEvent.rollbackOp r.1))

/-- Model of the composite transaction.Context: the source returns a
literal nil whatever child transactions the composite holds. -/
def transactionContext (transactions : List Nat) : Option GoContext :=
  none

end storage

namespace sql

/-- Model of sqlTransaction.Context: derive from the parent context a
context carrying the transaction handle in the ambient store. -/
def transactionContext (parentCtx : GoContext) (tx : Nat) : Option GoContext :=
  some (SetTx parentCtx tx)

end sql

namespace redis

/-- Model of redisTransaction.Context: derive from the parent context a
context carrying the pipeline handle in the ambient store. -/
def transactionContext (parentCtx : GoContext) (tx : Nat) : Option GoContext :=
  some (SetTx parentCtx tx)

end redis

/-! Concrete fixtures used to evaluate the theorems on closed inputs. -/

/-- A child transactor whose every operation succeeds (handle 1). -/
def okChild : storage.MTransactor :=
  { key := "storage_sql_tx"
    isTx := fun _ => false
    beginTx := fun _ => Except.ok 1
    beginCtx := fun c => Except.ok (sql.SetTx c 1)
    commitCtx := fun _ => none
    rollbackCtx := fun _ => none }

/-- A second all-succeeding child transactor (handle 2). -/
def okChild2 : storage.MTransactor :=
  { key := "storage_redis_tx"
    isTx := fun _ => false
    beginTx := fun _ => Except.ok 2
    beginCtx := fun c => Except.ok (redis.SetTx c 2)
    commitCtx := fun _ => none
    rollbackCtx := fun _ => none }

/-- A child transactor whose every operation fails with `childErr 7`. -/
def failingChild : storage.MTransactor :=
  { key := "storage_redis_tx"
    isTx := fun _ => false
    beginTx := fun _ => Except.error (Err.childErr 7)
    beginCtx := fun _ => Except.error (Err.childErr 7)
    commitCtx := fun _ => some (Err.childErr 7)
    rollbackCtx := fun _ => some (Err.childErr 7) }

/-- A driver oracle for which every SQL commit and rollback succeeds. -/
def quietSqlDriver : sql.Driver :=
  { commitErr := fun _ => none
    rollbackErr := fun _ => none }

/-- A driver oracle for which every pipeline Exec succeeds. -/
def quietRedisDriver : redis.Driver :=
  { execErr := fun _ => none }

/-- A SQL shard set whose selector never chooses a connection. -/
def noneSelConns : sql.Connections :=
  { connections := [{ key := "s1", conn := 3 }]
    selector := fun _ _ => none }

/-- A SQL shard set whose selector chooses the first connection. -/
def headSelConns : sql.Connections :=
  { connections := [{ key := "s1", conn := 3 }]
    selector := fun _ l => l.head? }

/-- A key-value shard set whose selector never chooses a client. -/
def noneSelClients : redis.Clients :=
  { clients := [{ key := "r1", conditions := [], client := 7 }]
    selector := fun _ _ => none }

/-- A key-value shard set whose selector chooses the first client. -/
def headSelClients : redis.Clients :=
  { clients := [{ key := "r1", conditions := [], client := 7 }]
    selector := fun _ l => l.head? }

/-- Three SQL shards with raw connections 1, 2 and 3. -/
def threeShards : List sql.ShardConnect :=
  [{ key := "a", conn := 1 }, { key := "b", conn := 2 }, { key := "c", conn := 3 }]

/-- A per-shard operation failing exactly on raw connection 2. -/
def failOnTwo : Nat → Option Err :=
  fun conn => if conn = 2 then some (Err.childErr 2) else none

/-- SQL shard construction input with a duplicated key. -/
def dupSqlInput : List sql.ShardConnectString :=
  [{ Key := "k", ConnectionString := "dsn1" },
   { Key := "k", ConnectionString := "dsn2" }]

/-- Key-value shard construction input with a duplicated key. -/
def dupRedisInput : List redis.ShardConnectConfig :=
  [{ Key := "k", Address := "h1", Port := 6379, DB := 0, Password := "",
     Conditions := [] },
   { Key := "k", Address := "h2", Port := 6380, DB := 0, Password := "",
     Conditions := [] }]

/-- A connect oracle that always succeeds (handle 0). -/
def alwaysConnect : String → Except Err Nat := fun _ => Except.ok 0

/-- A key-value connect oracle that always succeeds (handle 0). -/
def alwaysConnectKV : String → Int → Except Err Nat := fun _ _ => Except.ok 0

/-- Derived lookup skips the new entry for every other key. -/
theorem withValue_valueOf_ne (ctx : GoContext) (key k : String) (v : CtxValue)
    (hk : k ≠ key) : (withValue ctx key v).valueOf k = ctx.valueOf k := by
  have hfalse : (key == k) = false := beq_eq_false_iff_ne.mpr (fun h => hk h.symm)
  simp [withValue, GoContext.valueOf, List.find?, hfalse]

/-- Derived lookup at the written key returns the written value. -/
theorem withValue_valueOf_eq (ctx : GoContext) (key : String) (v : CtxValue) :
    (withValue ctx key v).valueOf key = some v := by
  simp [withValue, GoContext.valueOf, List.find?]

/-- C4: storing then looking up the ambient transaction round-trips for
both resource kinds: `GetTx (SetTx ctx tx) = some tx` (that is, the Go
pair `(tx, true)`); and `SetTx` only derives a new context — at every
context key other than the store's own key, a lookup on the derived
context agrees with the original, and the original context value itself
is never modified (contexts are immutable value chains in the
embedding, mirroring `context.WithValue`). -/
theorem ambient_tx_store_roundtrip (ctx : GoContext) (tx p : Nat) :
    sql.GetTx (sql.SetTx ctx tx) = some tx ∧
    redis.GetTx (redis.SetTx ctx p) = some p ∧
    (∀ k, k ≠ sql.transactionKey →
      (sql.SetTx ctx tx).valueOf k = ctx.valueOf k) ∧
    (∀ k, k ≠ redis.transactionKey →
      (redis.SetTx ctx p).valueOf k = ctx.valueOf k) := by
  refine ⟨?_, ?_, ?_, ?_⟩
  · simp [sql.GetTx, sql.SetTx, withValue_valueOf_eq]
  · simp [redis.GetTx, redis.SetTx, withValue_valueOf_eq]
  · intro k hk
    exact withValue_valueOf_ne ctx sql.transactionKey k _ hk
  · intro k hk
    exact withValue_valueOf_ne ctx redis.transactionKey k _ hk

/-- C4 witness: the round-trip evaluated at the root context with SQL
transaction handle 5 and pipeline handle 8, and locality checked at the
other resource kind's key. -/
theorem ambient_tx_store_roundtrip_witness :
    sql.GetTx (sql.SetTx background 5) = some 5 ∧
    redis.GetTx (redis.SetTx background 8) = some 8 ∧
    (sql.SetTx background 5).valueOf redis.transactionKey =
      background.valueOf redis.transactionKey ∧
    (redis.SetTx background 8).valueOf sql.transactionKey =
      background.valueOf sql.transactionKey := by
  obtain ⟨h1, h2, h3, h4⟩ := ambient_tx_store_roundtrip background 5 8
  exact ⟨h1, h2, h3 redis.transactionKey (by decide),
    h4 sql.transactionKey (by decide)⟩

/-- C5: on a context carrying no ambient transaction for the resource
kind, CommitCtx and RollbackCtx of the single-kind transactors (SQL and
key-value) return success and issue no commit, rollback, exec or
discard call on any transaction handle. -/
theorem commit_rollback_noop_without_tx (drv : sql.Driver) (rdrv : redis.Driver)
    (ctx : GoContext) :
    (sql.GetTx ctx = none →
      sql.CommitCtx drv ctx = (none, []) ∧
      sql.RollbackCtx drv ctx = (none, [])) ∧
    (redis.GetTx ctx = none →
      redis.CommitCtx rdrv ctx = (none, []) ∧
      redis.RollbackCtx ctx = (none, [])) := by
  constructor
  · intro h
    constructor <;> simp [sql.CommitCtx, sql.RollbackCtx, h]
  · intro h
    constructor <;> simp [redis.CommitCtx, redis.RollbackCtx, h]

/-- C5 witness: the no-op behaviour evaluated at the root context, which
carries no transaction of either kind. -/
theorem commit_rollback_noop_without_tx_witness :
    sql.CommitCtx quietSqlDriver background = (none, []) ∧
    sql.RollbackCtx quietSqlDriver background = (none, []) ∧
    redis.CommitCtx quietRedisDriver background = (none, []) ∧
    redis.RollbackCtx background = (none, []) := by
  have h := commit_rollback_noop_without_tx quietSqlDriver quietRedisDriver background
  obtain ⟨hs, hr⟩ := h
  obtain ⟨hs1, hs2⟩ := hs rfl
  obtain ⟨hr1, hr2⟩ := hr rfl
  exact ⟨hs1, hs2, hr1, hr2⟩

/-- C6: resolving a connection through a shard set invokes the selector;
when the selector yields none, Get fails with the distinguished
`storage.ErrConnNotSelected` and returns no handle, and when the
selector yields a handle, Get returns exactly that handle with no
error — for the SQL `Connections` and the key-value `Clients` alike. -/
theorem connections_get_selector (c : sql.Connections) (rc : redis.Clients)
    (ctx : GoContext) :
    (c.selector ctx c.connections = none →
      c.Get ctx = Except.error Err.connNotSelected) ∧
    (∀ h, c.selector ctx c.connections = some h → c.Get ctx = Except.ok h) ∧
    (rc.selector ctx rc.clients = none →
      rc.Get ctx = Except.error Err.connNotSelected) ∧
    (∀ h, rc.selector ctx rc.clients = some h → rc.Get ctx = Except.ok h) := by
  refine ⟨?_, ?_, ?_, ?_⟩
  · intro h; simp [sql.Connections.Get, h]
  · intro hd h; simp [sql.Connections.Get, h]
  · intro h; simp [redis.Clients.Get, h]
  · intro hd h; simp [redis.Clients.Get, h]

/-- C6 witness: a selector that yields nothing produces the
connection-not-selected error, and a head-choosing selector returns the
first handle, for both resource kinds. -/
theorem connections_get_selector_witness :
    noneSelConns.Get background = Except.error Err.connNotSelected ∧
    headSelConns.Get background = Except.ok { key := "s1", conn := 3 } ∧
    noneSelClients.Get background = Except.error Err.connNotSelected ∧
    headSelClients.Get background =
      Except.ok { key := "r1", conditions := [], client := 7 } := by
  have h1 := (connections_get_selector noneSelConns noneSelClients background).1 rfl
  have h2 := ((connections_get_selector headSelConns headSelClients background).2.1)
    { key := "s1", conn := 3 } rfl
  have h3 := (connections_get_selector noneSelConns noneSelClients background).2.2.1 rfl
  have h4 := ((connections_get_selector headSelConns headSelClients background).2.2.2)
    { key := "r1", conditions := [], client := 7 } rfl
  exact ⟨h1, h2, h3, h4⟩

/-- C10: the composite Transaction's Context method always returns nil,
whatever child transactions it holds, unlike the single-kind SQL and
key-value transactions, whose Context derives from the parent context a
context carrying the transaction handle in the ambient store. -/
theorem composite_transaction_context_nil (txs : List Nat) (parent : GoContext)
    (tx p : Nat) :
    storage.transactionContext txs = none ∧
    sql.transactionContext parent tx = some (sql.SetTx parent tx) ∧
    redis.transactionContext parent p = some (redis.SetTx parent p) :=
  ⟨rfl, rfl, rfl⟩

/-- C1: evaluation of the sharded clients on a context that carries an
ambient transaction.  The SQL sharded client and the repository's other
key-value shard client (src/unnamed/part_001) dispatch to the stored
transaction handle as the claim states, but shardClient.Get of
redis/client_shard.go issues the command against the raw
selector-chosen client even though the context carries pipeline 42: the
ambient transaction store is never consulted by that client, so the
claim fails on it.  Without an ambient transaction every client runs
against the raw connection, as claimed. -/
theorem redis_shard_get_ignores_ambient_tx :
    redis.shardGet headSelClients (redis.SetTx background 42) "user" =
      Except.ok (redis.ExecTarget.rawTarget 7) ∧
    redis.shardGetTxAware headSelClients (redis.SetTx background 42) "user" =
      Except.ok (redis.ExecTarget.txTarget 42) ∧
    sql.ExecContext headSelConns (sql.SetTx background 9) =
      Except.ok (sql.ExecTarget.txTarget 9) ∧
    sql.ExecContext headSelConns background =
      Except.ok (sql.ExecTarget.rawTarget 3) ∧
    redis.shardGet headSelClients background "user" =
      Except.ok (redis.ExecTarget.rawTarget 7) := by
  exact ⟨rfl, rfl, rfl, rfl, rfl⟩

/-- Helper for C2: composite Begin over a prefix of succeeding children
followed by a failing child stops at the failure, whatever the starting
index. -/
theorem beginAux_fail_after_ok (ctx : GoContext) (bad : storage.MTransactor)
    (post : List storage.MTransactor) (e : Err)
    (hbad : bad.beginTx ctx = Except.error e) :
    ∀ (pre : List storage.MTransactor) (i : Nat),
      (∀ tr ∈ pre, ∃ tx, tr.beginTx ctx = Except.ok tx) →
      storage.BeginAux ctx (pre ++ bad :: post) i =
        (Except.error e, (List.range' i (pre.length + 1)).map TxEvent.beginOp) := by
  intro pre
  induction pre with
  | nil =>
    intro i hpre
    simp [storage.BeginAux, hbad, List.range'_succ]
  | cons tr rest ih =>
    intro i hpre
    obtain ⟨tx, htx⟩ := hpre tr (by simp)
    have hrest : ∀ t ∈ rest, ∃ x, t.beginTx ctx = Except.ok x :=
      fun t ht => hpre t (by simp [ht])
    have hih := ih (i + 1) hrest
    simp [storage.BeginAux, htx, hih, List.range'_succ]

/-- Helper for C2: the same stop-at-first-failure shape for the
context-threading BeginCtx loop. -/
theorem beginCtxAux_fail_after_ok (bad : storage.MTransactor)
    (post : List storage.MTransactor) (e : Err)
    (hbad : ∀ c, bad.beginCtx c = Except.error e) :
    ∀ (pre : List storage.MTransactor) (i : Nat) (ctx : GoContext),
      (∀ tr ∈ pre, ∀ c, ∃ c2, tr.beginCtx c = Except.ok c2) →
      (storage.BeginCtxAux ctx (pre ++ bad :: post) i).1 = Except.error e ∧
      (storage.BeginCtxAux ctx (pre ++ bad :: post) i).2 =
        (List.range' i (pre.length + 1)).map TxEvent.beginCtxOp := by
  intro pre
  induction pre with
  | nil =>
    intro i ctx hpre
    simp [storage.BeginCtxAux, hbad ctx, List.range'_succ]
  | cons tr rest ih =>
    intro i ctx hpre
    obtain ⟨c2, hc2⟩ := hpre tr (by simp) ctx
    have hrest : ∀ t ∈ rest, ∀ c, ∃ x, t.beginCtx c = Except.ok x :=
      fun t ht => hpre t (by simp [ht])
    obtain ⟨hih1, hih2⟩ := ih (i + 1) c2 hrest
    constructor
    · simp [storage.BeginCtxAux, hc2]
      exact hih1
    · simp [storage.BeginCtxAux, hc2, hih2, List.range'_succ]

/-- C2: the composite Transactor begins its children sequentially in
construction order; when the child at position i fails, Begin and
BeginCtx propagate exactly that error, the call trace contains one
begin per child 0..i in order and nothing else — in particular no child
after i is begun, and no rollback (nor any other operation) is invoked
on the already-begun children 0..i-1, which are left open. -/
theorem composite_begin_short_circuits (pre : List storage.MTransactor)
    (bad : storage.MTransactor) (post : List storage.MTransactor)
    (ctx : GoContext) (e : Err)
    (h1 : ∀ tr ∈ pre, ∃ tx, tr.beginTx ctx = Except.ok tx)
    (h2 : bad.beginTx ctx = Except.error e)
    (h3 : ∀ tr ∈ pre, ∀ c, ∃ c2, tr.beginCtx c = Except.ok c2)
    (h4 : ∀ c, bad.beginCtx c = Except.error e) :
    storage.Begin (pre ++ bad :: post) ctx =
      (Except.error e, (List.range (pre.length + 1)).map TxEvent.beginOp) ∧
    (storage.BeginCtx (pre ++ bad :: post) ctx).1 = Except.error e ∧
    (storage.BeginCtx (pre ++ bad :: post) ctx).2 =
      (List.range (pre.length + 1)).map TxEvent.beginCtxOp := by
  have ha := beginAux_fail_after_ok ctx bad post e h2 pre 0 h1
  have hb := beginCtxAux_fail_after_ok bad post e h4 pre 0 ctx h3
  rw [List.range_eq_range']
  exact ⟨ha, hb.1, hb.2⟩

/-- C2 witness: one succeeding child, then a failing child, then a
third child: both begin operations stop after the failing child with
its error, having begun exactly children 0 and 1. -/
theorem composite_begin_short_circuits_witness :
    storage.Begin [okChild, failingChild, okChild2] background =
      (Except.error (Err.childErr 7), [TxEvent.beginOp 0, TxEvent.beginOp 1]) ∧
    (storage.BeginCtx [okChild, failingChild, okChild2] background).1 =
      Except.error (Err.childErr 7) ∧
    (storage.BeginCtx [okChild, failingChild, okChild2] background).2 =
      [TxEvent.beginCtxOp 0, TxEvent.beginCtxOp 1] := by
  have h1 : ∀ tr ∈ [okChild], ∃ tx, tr.beginTx background = Except.ok tx := by
    intro tr htr
    rw [List.mem_singleton] at htr
    subst htr
    exact ⟨1, rfl⟩
  have h3 : ∀ tr ∈ [okChild], ∀ c, ∃ c2, tr.beginCtx c = Except.ok c2 := by
    intro tr htr c
    rw [List.mem_singleton] at htr
    subst htr
    exact ⟨_, rfl⟩
  have h4 : ∀ c, failingChild.beginCtx c = Except.error (Err.childErr 7) :=
    fun _ => rfl
  exact composite_begin_short_circuits [okChild] failingChild [okChild2]
    background (Err.childErr 7) h1 rfl h3 h4

/-- Helper: the aggregate of an errgroup wait is success exactly when
every launched operation succeeded. -/
theorem firstSome_eq_none_iff :
    ∀ l : List (Option Err), firstSome l = none ↔ ∀ x ∈ l, x = none := by
  intro l
  induction l with
  | nil => simp [firstSome]
  | cons x rest ih =>
    cases x with
    | none => simp [firstSome, ih]
    | some e => simp [firstSome]

/-- Helper: a failing aggregate is the error of one of the launched
operations. -/
theorem firstSome_mem :
    ∀ (l : List (Option Err)) (e : Err), firstSome l = some e → some e ∈ l := by
  intro l
  induction l with
  | nil => intro e h; simp [firstSome] at h
  | cons x rest ih =>
    intro e h
    cases x with
    | none =>
      rw [show firstSome (none :: rest) = firstSome rest from rfl] at h
      exact List.mem_cons_of_mem _ (ih e h)
    | some e2 =>
      rw [show firstSome (some e2 :: rest) = some e2 from rfl] at h
      rw [← h]
      exact List.mem_cons_self _ _

/-- Helper: positions of the per-child results of a composite fan-out. -/
theorem childResults_map_fst (op : storage.MTransactor → GoContext → Option Err)
    (ctx : GoContext) :
    ∀ (l : List storage.MTransactor) (i : Nat),
      (storage.childResults op ctx l i).map (fun r => r.1) = List.range' i l.length := by
  intro l
  induction l with
  | nil => intro i; simp [storage.childResults]
  | cons tr rest ih =>
    intro i
    simp [storage.childResults, ih (i + 1), List.range'_succ]

/-- Helper: outcomes of the per-child results of a composite fan-out. -/
theorem childResults_map_snd (op : storage.MTransactor → GoContext → Option Err)
    (ctx : GoContext) :
    ∀ (l : List storage.MTransactor) (i : Nat),
      (storage.childResults op ctx l i).map (fun r => r.2) =
        l.map (fun tr => op tr ctx) := by
  intro l
  induction l with
  | nil => intro i; simp [storage.childResults]
  | cons tr rest ih =>
    intro i
    simp [storage.childResults, ih (i + 1)]

/-- C3: the composite Transactor's CommitCtx and RollbackCtx invoke the
corresponding operation of every child in construction order regardless
of other children's failures (the trace is exactly one commit, resp.
rollback, per child), and the aggregate is an error precisely when at
least one child's operation returned an error, the aggregate error
being one of the children's errors. -/
theorem composite_commit_rollback_all_children
    (children : List storage.MTransactor) (ctx : GoContext) :
    (storage.CommitCtx children ctx).2 =
      (List.range children.length).map TxEvent.commitOp ∧
    (storage.RollbackCtx children ctx).2 =
      (List.range children.length).map TxEvent.rollbackOp ∧
    ((storage.CommitCtx children ctx).1 ≠ none ↔
      ∃ tr ∈ children, tr.commitCtx ctx ≠ none) ∧
    ((storage.RollbackCtx children ctx).1 ≠ none ↔
      ∃ tr ∈ children, tr.rollbackCtx ctx ≠ none) ∧
    (∀ e, (storage.CommitCtx children ctx).1 = some e →
      ∃ tr ∈ children, tr.commitCtx ctx = some e) ∧
    (∀ e, (storage.RollbackCtx children ctx).1 = some e →
      ∃ tr ∈ children, tr.rollbackCtx ctx = some e) := by
  have htrc : (storage.CommitCtx children ctx).2 =
      (List.range children.length).map TxEvent.commitOp := by
    show ((storage.childResults (fun tr => tr.commitCtx) ctx children 0).map
      (fun r => TxEvent.commitOp r.1)) = _
    rw [List.range_eq_range', ← childResults_map_fst (fun tr => tr.commitCtx) ctx children 0,
      List.map_map]
    rfl
  have htrr : (storage.RollbackCtx children ctx).2 =
      (List.range children.length).map TxEvent.rollbackOp := by
    show ((storage.childResults (fun tr => tr.rollbackCtx) ctx children 0).map
      (fun r => TxEvent.rollbackOp r.1)) = _
    rw [List.range_eq_range',
      ← childResults_map_fst (fun tr => tr.rollbackCtx) ctx children 0,
      List.map_map]
    rfl
  have hresc : (storage.CommitCtx children ctx).1 =
      firstSome (children.map (fun tr => tr.commitCtx ctx)) := by
    show firstSome ((storage.childResults (fun tr => tr.commitCtx) ctx children 0).map
      (fun r => r.2)) = _
    rw [childResults_map_snd]
  have hresr : (storage.RollbackCtx children ctx).1 =
      firstSome (children.map (fun tr => tr.rollbackCtx ctx)) := by
    show firstSome ((storage.childResults (fun tr => tr.rollbackCtx) ctx children 0).map
      (fun r => r.2)) = _
    rw [childResults_map_snd]
  refine ⟨htrc, htrr, ?_, ?_, ?_, ?_⟩
  · rw [hresc]
    rw [← not_iff_not]
    push_neg
    rw [firstSome_eq_none_iff]
    simp
  · rw [hresr]
    rw [← not_iff_not]
    push_neg
    rw [firstSome_eq_none_iff]
    simp
  · intro e he
    rw [hresc] at he
    have := firstSome_mem _ e he
    rw [List.mem_map] at this
    obtain ⟨tr, htr, heq⟩ := this
    exact ⟨tr, htr, heq⟩
  · intro e he
    rw [hresr] at he
    have := firstSome_mem _ e he
    rw [List.mem_map] at this
    obtain ⟨tr, htr, heq⟩ := this
    exact ⟨tr, htr, heq⟩

/-- C3 witness: over a succeeding child followed by a failing child,
both children are invoked (the trace holds both), the aggregate fails,
and the aggregate error is the failing child's error. -/
theorem composite_commit_rollback_all_children_witness :
    (storage.CommitCtx [okChild, failingChild] background).2 =
      [TxEvent.commitOp 0, TxEvent.commitOp 1] ∧
    (storage.RollbackCtx [okChild, failingChild] background).2 =
      [TxEvent.rollbackOp 0, TxEvent.rollbackOp 1] ∧
    (storage.CommitCtx [okChild, failingChild] background).1 ≠ none ∧
    (∃ tr ∈ [okChild, failingChild],
      tr.commitCtx background = some (Err.childErr 7)) := by
  have h := composite_commit_rollback_all_children [okChild, failingChild] background
  refine ⟨h.1, h.2.1, ?_, h.2.2.2.2.1 (Err.childErr 7) rfl⟩
  exact h.2.2.1.mpr ⟨failingChild, by simp, by simp [failingChild]⟩

/-- Helper for C7: EachShard over all-succeeding shards visits every
shard in order and succeeds. -/
theorem eachShard_all_ok :
    ∀ (shards : List sql.ShardConnect) (fn : Nat → Option Err),
      (∀ sh ∈ shards, fn sh.conn = none) →
      sql.EachShard shards fn = (none, shards.map (fun s => s.conn)) := by
  intro shards
  induction shards with
  | nil => intro fn h; rfl
  | cons s rest ih =>
    intro fn h
    have hs : fn s.conn = none := h s (by simp)
    have hrest : ∀ sh ∈ rest, fn sh.conn = none := fun sh hsh => h sh (by simp [hsh])
    simp [sql.EachShard, hs, ih fn hrest]

/-- C7: EachShard applies the per-shard function to the shards
sequentially in iteration order; when the function fails on a shard,
that error is returned, the invocation trace is exactly the shards up
to and including the failing one, so no shard after it is ever invoked;
when every invocation succeeds, nil is returned with every shard
invoked in order. -/
theorem each_shard_sequential_short_circuit :
    (∀ (pre : List sql.ShardConnect) (s : sql.ShardConnect)
      (post : List sql.ShardConnect) (fn : Nat → Option Err) (e : Err),
      (∀ sh ∈ pre, fn sh.conn = none) → fn s.conn = some e →
      sql.EachShard (pre ++ s :: post) fn =
        (some e, pre.map (fun sh => sh.conn) ++ [s.conn])) ∧
    (∀ (shards : List sql.ShardConnect) (fn : Nat → Option Err),
      (∀ sh ∈ shards, fn sh.conn = none) →
      sql.EachShard shards fn = (none, shards.map (fun s => s.conn))) := by
  constructor
  · intro pre
    induction pre with
    | nil =>
      intro s post fn e hpre hs
      simp [sql.EachShard, hs]
    | cons q rest ih =>
      intro s post fn e hpre hs
      have hq : fn q.conn = none := hpre q (by simp)
      have hrest : ∀ sh ∈ rest, fn sh.conn = none :=
        fun sh hsh => hpre sh (by simp [hsh])
      simp [sql.EachShard, hq, ih s post fn e hrest hs]
  · exact eachShard_all_ok

/-- C7 witness: shards with raw connections 1, 2, 3 and an operation
failing on 2: shard 1 runs, shard 2 fails and its error is returned,
shard 3 is never invoked; with an all-succeeding operation every shard
runs in order. -/
theorem each_shard_sequential_short_circuit_witness :
    sql.EachShard threeShards failOnTwo = (some (Err.childErr 2), [1, 2]) ∧
    sql.EachShard threeShards (fun _ => none) = (none, [1, 2, 3]) := by
  have h1 := each_shard_sequential_short_circuit.1 [{ key := "a", conn := 1 }]
    { key := "b", conn := 2 } [{ key := "c", conn := 3 }] failOnTwo
    (Err.childErr 2) ?hp ?hf
  case hp =>
    intro sh hsh
    rw [List.mem_singleton] at hsh
    subst hsh
    rfl
  case hf => rfl
  have h2 := each_shard_sequential_short_circuit.2 threeShards (fun _ => none)
    (fun sh hsh => rfl)
  exact ⟨h1, h2⟩

/-- C8: EachShardAsync invokes the per-shard function on every shard
even when some invocation fails (the trace is always the full shard
list, in construction order), and the aggregate result is an error
precisely when at least one invocation failed — any aggregate error
being one of the shard errors. -/
theorem each_shard_async_no_short_circuit (shards : List sql.ShardConnect)
    (fn : Nat → Option Err) :
    (sql.EachShardAsync shards fn).2 = shards.map (fun s => s.conn) ∧
    ((sql.EachShardAsync shards fn).1 ≠ none ↔
      ∃ sh ∈ shards, fn sh.conn ≠ none) ∧
    (∀ e, (sql.EachShardAsync shards fn).1 = some e →
      ∃ sh ∈ shards, fn sh.conn = some e) := by
  refine ⟨rfl, ?_, ?_⟩
  · show firstSome (shards.map (fun s => fn s.conn)) ≠ none ↔ _
    rw [← not_iff_not]
    push_neg
    rw [firstSome_eq_none_iff]
    simp
  · intro e he
    have := firstSome_mem _ e he
    rw [List.mem_map] at this
    obtain ⟨sh, hsh, heq⟩ := this
    exact ⟨sh, hsh, heq⟩

/-- C8 witness: the same three shards with the operation failing on
shard 2: all three shards are invoked, the aggregate fails, and the
aggregate error is shard 2's error. -/
theorem each_shard_async_no_short_circuit_witness :
    (sql.EachShardAsync threeShards failOnTwo).2 = [1, 2, 3] ∧
    (sql.EachShardAsync threeShards failOnTwo).1 ≠ none ∧
    (∃ sh ∈ threeShards, failOnTwo sh.conn = some (Err.childErr 2)) := by
  have h := each_shard_async_no_short_circuit threeShards failOnTwo
  refine ⟨h.1, ?_, h.2.2 (Err.childErr 2) rfl⟩
  exact h.2.1.mpr ⟨{ key := "b", conn := 2 }, by simp [threeShards], by simp [failOnTwo]⟩

/-- Helper for C9: when the SQL validation loop accepts a list, every
entry has a non-empty key and connection string, the keys are pairwise
distinct, and none of them occurs in the already-seen set. -/
theorem sql_validate_none_sound :
    ∀ (css : List sql.ShardConnectString) (seen : List String),
      sql.validateShardStrings css seen = none →
      (∀ cs ∈ css, cs.Key ≠ "" ∧ cs.ConnectionString ≠ "") ∧
      (css.map (fun cs => cs.Key)).Nodup ∧
      (∀ cs ∈ css, cs.Key ∉ seen) := by
  intro css
  induction css with
  | nil => intro seen h; simp
  | cons cs rest ih =>
    intro seen h
    rw [sql.validateShardStrings] at h
    by_cases h1 : cs.Key = ""
    · simp [h1] at h
    by_cases h2 : cs.ConnectionString = ""
    · simp [h1, h2] at h
    by_cases h3 : cs.Key ∈ seen
    · simp [h1, h2, h3] at h
    simp only [h1, h2, h3, if_false, if_neg] at h
    obtain ⟨ha, hb, hc⟩ := ih (cs.Key :: seen) h
    refine ⟨?_, ?_, ?_⟩
    · intro x hx
      rcases List.mem_cons.mp hx with hx | hx
      · subst hx; exact ⟨h1, h2⟩
      · exact ha x hx
    · rw [List.map_cons, List.nodup_cons]
      constructor
      · intro hmem
        obtain ⟨x, hx, hkey⟩ := List.mem_map.mp hmem
        exact List.ne_of_not_mem_cons (hc x hx) hkey
      · exact hb
    · intro x hx
      rcases List.mem_cons.mp hx with hx | hx
      · subst hx; exact h3
      · exact List.not_mem_of_not_mem_cons (hc x hx)

/-- Helper for C9: the key-value analogue — an accepted list has
non-empty keys and addresses, no zero port, and pairwise distinct keys. -/
theorem redis_validate_none_sound :
    ∀ (ccs : List redis.ShardConnectConfig) (seen : List String),
      redis.validateConfigs ccs seen = none →
      (∀ cs ∈ ccs, cs.Key ≠ "" ∧ cs.Address ≠ "" ∧ cs.Port ≠ 0) ∧
      (ccs.map (fun cs => cs.Key)).Nodup ∧
      (∀ cs ∈ ccs, cs.Key ∉ seen) := by
  intro ccs
  induction ccs with
  | nil => intro seen h; simp
  | cons cs rest ih =>
    intro seen h
    rw [redis.validateConfigs] at h
    by_cases h1 : cs.Key = ""
    · simp [h1] at h
    by_cases h2 : cs.Address = ""
    · simp [h1, h2] at h
    by_cases h3 : cs.Port = 0
    · simp [h1, h2, h3] at h
    by_cases h4 : cs.Key ∈ seen
    · simp [h1, h2, h3, h4] at h
    simp only [h1, h2, h3, h4, if_false, if_neg] at h
    obtain ⟨ha, hb, hc⟩ := ih (cs.Key :: seen) h
    refine ⟨?_, ?_, ?_⟩
    · intro x hx
      rcases List.mem_cons.mp hx with hx | hx
      · subst hx; exact ⟨h1, h2, h3⟩
      · exact ha x hx
    · rw [List.map_cons, List.nodup_cons]
      constructor
      · intro hmem
        obtain ⟨x, hx, hkey⟩ := List.mem_map.mp hmem
        exact List.ne_of_not_mem_cons (hc x hx) hkey
      · exact hb
    · intro x hx
      rcases List.mem_cons.mp hx with hx | hx
      · subst hx; exact h4
      · exact List.not_mem_of_not_mem_cons (hc x hx)

/-- C9: shard-set construction validates every entry before the first
connection attempt: on an input with an empty key, an empty connection
parameter (connection string for SQL; address or zero port for the
key-value store), or two entries sharing a key, ConnectShards fails and
the trace of attempted connections is empty — for no entry is a
connection attempted. -/
theorem connect_shards_validation_fails_fast :
    (∀ (css : List sql.ShardConnectString) (connect : String → Except Err Nat),
      ((∃ cs ∈ css, cs.Key = "" ∨ cs.ConnectionString = "") ∨
        ¬ (css.map (fun cs => cs.Key)).Nodup) →
      (∃ e, (sql.ConnectShards css connect).1 = Except.error e) ∧
      (sql.ConnectShards css connect).2 = []) ∧
    (∀ (ccs : List redis.ShardConnectConfig)
      (connect : String → Int → Except Err Nat),
      ((∃ cs ∈ ccs, cs.Key = "" ∨ cs.Address = "" ∨ cs.Port = 0) ∨
        ¬ (ccs.map (fun cs => cs.Key)).Nodup) →
      (∃ e, (redis.ConnectShards ccs connect).1 = Except.error e) ∧
      (redis.ConnectShards ccs connect).2 = []) := by
  constructor
  · intro css connect hflaw
    cases hval : sql.validateShardStrings css [] with
    | none =>
      obtain ⟨ha, hb, _⟩ := sql_validate_none_sound css [] hval
      exfalso
      rcases hflaw with ⟨cs, hcs, hbad⟩ | hdup
      · rcases hbad with hbad | hbad
        · exact (ha cs hcs).1 hbad
        · exact (ha cs hcs).2 hbad
      · exact hdup hb
    | some e =>
      constructor
      · exact ⟨e, by simp [sql.ConnectShards, hval]⟩
      · simp [sql.ConnectShards, hval]
  · intro ccs connect hflaw
    cases hval : redis.validateConfigs ccs [] with
    | none =>
      obtain ⟨ha, hb, _⟩ := redis_validate_none_sound ccs [] hval
      exfalso
      rcases hflaw with ⟨cs, hcs, hbad⟩ | hdup
      · rcases hbad with hbad | hbad | hbad
        · exact (ha cs hcs).1 hbad
        · exact (ha cs hcs).2.1 hbad
        · exact (ha cs hcs).2.2 hbad
      · exact hdup hb
    | some e =>
      constructor
      · exact ⟨e, by simp [redis.ConnectShards, hval]⟩
      · simp [redis.ConnectShards, hval]

/-- C9 witness: two-entry inputs sharing the key "k", for SQL and for
the key-value store: construction fails and no connection attempt is
traced, even though the connect oracle would succeed on every entry. -/
theorem connect_shards_validation_fails_fast_witness :
    ((∃ e, (sql.ConnectShards dupSqlInput alwaysConnect).1 = Except.error e) ∧
      (sql.ConnectShards dupSqlInput alwaysConnect).2 = []) ∧
    ((∃ e, (redis.ConnectShards dupRedisInput alwaysConnectKV).1 = Except.error e) ∧
      (redis.ConnectShards dupRedisInput alwaysConnectKV).2 = []) := by
  constructor
  · exact connect_shards_validation_fails_fast.1 dupSqlInput alwaysConnect
      (Or.inr (by decide))
  · exact connect_shards_validation_fails_fast.2 dupRedisInput alwaysConnectKV
      (Or.inr (by decide))
